import Mathlib

/-!
Verification of the DiscordChatAIBot repository (single source file `app.py`).

The program is a Discord chat bot: incoming messages are recorded into a
SQLite store and a rolling in-process memory list; when the bot is
mentioned it assembles a context transcript, builds a personality prompt
whose tone depends on the memory length, calls a completion API and posts
the reply.

This file is a shallow embedding of that code.  Pure Python functions
become Lean functions; the SQLite tables become lists of records; the
fallible external calls (SQLite statements guarded by `try`, the
completion API) are modeled by explicit outcome parameters, so every
embedded operation is a total function on explicit state.
-/

/-- String literal constants used by the embedded code. -/
def newlineStr : String := "\n"

def colonSpace : String := ": "

def botLabel : String := "Bot"

/-- Line 386: the fixed apology sent when the completion call raises. -/
def errorMessage : String := "Sorry, there was an error processing your request."

/-- Python list slice `l[-n:]`: the last `n` elements (all of them when the
list is shorter). -/
def pyTail (n : Nat) (l : List α) : List α := l.drop (l.length - n)

/-- Python `str.strip()` on a list of characters: drop whitespace from both
ends. -/
def pyStripChars (s : List Char) : List Char :=
  ((s.dropWhile Char.isWhitespace).reverse.dropWhile Char.isWhitespace).reverse

/-- Python `str.strip()`. -/
def pyStrip (s : String) : String := String.mk (pyStripChars s.data)

/-- One pass of Python `str.replace(pat, empty)`: remove the non-overlapping
occurrences of `pat` from left to right, continuing the scan right after
each removed occurrence.  Fuel-indexed (the fuel is the string length) so
that it is structurally recursive and reduces inside the kernel. -/
def removeAllGo (pat : List Char) : Nat → List Char → List Char
  | _, [] => []
  | 0, s => s
  | fuel + 1, c :: rest =>
    if pat.isPrefixOf (c :: rest) then removeAllGo pat fuel (rest.drop (pat.length - 1))
    else c :: removeAllGo pat fuel rest

/-- Python `s.replace(pat, empty)` for a pattern. -/
def removeAll (pat s : List Char) : List Char :=
  if pat.isEmpty then s else removeAllGo pat s.length s

/-- The bot's own mention markup without exclamation mark, the Python
f-string built from `self.bot.user.id` on line 338. -/
def mentionPlain (id : Nat) : List Char :=
  '<' :: '@' :: (Nat.repr id).data ++ ['>']

/-- The bot's own mention markup with exclamation mark, line 338. -/
def mentionNick (id : Nat) : List Char :=
  '<' :: '@' :: '!' :: (Nat.repr id).data ++ ['>']

/-- Line 338: `message.content.replace(mentionPlain, empty).replace(mentionNick, empty).strip()`. -/
def cleanMessage (id : Nat) (content : String) : String :=
  String.mk (pyStripChars (removeAll (mentionNick id) (removeAll (mentionPlain id) content.data)))

/-- Lines 398-402: the personality-refresh prompt. -/
def refreshedInstruction (personality author_name context : String) : String :=
  "Previous conversation context:\n" ++ context ++ "\n" ++
    "You are: " ++ personality ++ "\n" ++
    "Respond to " ++ author_name ++ " in first person. Stay in character."

/-- Lines 406-411: the annoyed prompt. -/
def irritatedInstruction (personality author_name context : String) : String :=
  "Previous conversation context:\n" ++ context ++ "\n" ++
    "You are: " ++ personality ++ "\n" ++
    "You will never admit to being an AI. You are currently annoyed. " ++
    "Respond to " ++ author_name ++ " in first person with a slightly irritated tone."

/-- Lines 415-419: the standard prompt. -/
def standardInstruction (personality author_name context : String) : String :=
  "Previous conversation context:\n" ++ context ++ "\n" ++
    "You are: " ++ personality ++ "\n" ++
    "You will never admit to being an AI. Respond to " ++ author_name ++ " in first person."

/-- Lines 391-421, `_build_prompt`: select the prompt from the current
memory length.  The `message_content` parameter is part of the Python
signature and is never used by the body. -/
def build_prompt (personality author_name message_content context : String)
    (memory_length : Nat) : String :=
  if memory_length % 5 = 0 ∨ memory_length = 1 then
    refreshedInstruction personality author_name context
  else if memory_length > 40 then
    irritatedInstruction personality author_name context
  else
    standardInstruction personality author_name context

/-- Lines 327-337: assemble the context lines for a response.  The guarded
database read is passed in as `fetch` (`Except.error` models the read
raising); when the message has no channel the read is skipped and the
fetched value ignored.  An empty result falls back to the last 100 lines
of the rolling memory. -/
def buildContext (channel : Option Nat) (fetch : Except Unit (List String))
    (memory : List String) : List String :=
  let context_lines : List String :=
    match channel with
    | none => []
    | some _ =>
      match fetch with
      | Except.ok ls => ls
      | Except.error _ => []
  if context_lines.isEmpty then pyTail 100 memory else context_lines

/-- C1: tone selection in `_build_prompt` is a pure function of the memory
length `n`: when `n = 1` or `n % 5 = 0` the Refreshed instruction is
produced; otherwise when `n > 40` the Irritated instruction; otherwise the
Standard instruction.  Refreshed takes precedence over Irritated for every
`n` (multiples of 5 above 40 still refresh). -/
theorem tone_selection_pure (personality author_name message_content context : String)
    (n : Nat) :
    ((n = 1 ∨ n % 5 = 0) →
      build_prompt personality author_name message_content context n =
        refreshedInstruction personality author_name context) ∧
    (¬(n = 1 ∨ n % 5 = 0) → 40 < n →
      build_prompt personality author_name message_content context n =
        irritatedInstruction personality author_name context) ∧
    (¬(n = 1 ∨ n % 5 = 0) → n ≤ 40 →
      build_prompt personality author_name message_content context n =
        standardInstruction personality author_name context) := by
  refine ⟨fun h => ?_, fun h h40 => ?_, fun h h40 => ?_⟩
  · unfold build_prompt
    rw [if_pos h.symm]
  · unfold build_prompt
    rw [if_neg (fun h' => h h'.symm), if_pos h40]
  · unfold build_prompt
    rw [if_neg (fun h' => h h'.symm), if_neg (by omega : ¬ 40 < n)]

/-- Concrete personality text used by witnesses. -/
def personaW : String := "a caracal cat"

def authorW : String := "alice"

def contentW : String := "hello"

def contextW : String := "alice: hi"

/-- Witness for C1 at the counters 45 (refresh wins over irritation),
41 (irritated) and 2 (standard). -/
theorem tone_selection_pure_witness :
    build_prompt personaW authorW contentW contextW 45 =
      refreshedInstruction personaW authorW contextW ∧
    build_prompt personaW authorW contentW contextW 41 =
      irritatedInstruction personaW authorW contextW ∧
    build_prompt personaW authorW contentW contextW 2 =
      standardInstruction personaW authorW contextW :=
  ⟨(tone_selection_pure personaW authorW contentW contextW 45).1 (by decide),
   (tone_selection_pure personaW authorW contentW contextW 41).2.1 (by decide) (by decide),
   (tone_selection_pure personaW authorW contentW contextW 2).2.2 (by decide) (by decide)⟩

/-- C9: the built instruction does not depend on the triggering message's
cleaned text: `_build_prompt` never uses its `message_content` parameter,
so any two contents yield the identical instruction string. -/
theorem prompt_independent_of_message_content
    (personality author_name context m1 m2 : String) (n : Nat) :
    build_prompt personality author_name m1 context n =
      build_prompt personality author_name m2 context n := rfl

/-- C4: the context assembler returns the durable transcript verbatim
whenever the read succeeds and is nonempty, and returns the last 100
rolling-memory lines whenever the read raises or returns the empty
list. -/
theorem context_assembler_fallback (ch : Nat) (memory : List String) :
    (∀ ls : List String, ls ≠ [] →
       buildContext (some ch) (Except.ok ls) memory = ls) ∧
    buildContext (some ch) (Except.error ()) memory = pyTail 100 memory ∧
    buildContext (some ch) (Except.ok []) memory = pyTail 100 memory := by
  refine ⟨fun ls h => ?_, rfl, rfl⟩
  cases ls with
  | nil => exact absurd rfl h
  | cons a t => rfl

def memLineW : String := "alice: hi"

def dbLineW : String := "bob: hey"

/-- Witness for C4: a nonempty transcript is used verbatim; an error and an
empty read both fall back to the memory tail. -/
theorem context_assembler_fallback_witness :
    buildContext (some 0) (Except.ok [dbLineW]) [memLineW] = [dbLineW] ∧
    buildContext (some 0) (Except.error ()) [memLineW] = pyTail 100 [memLineW] ∧
    buildContext (some 0) (Except.ok []) [memLineW] = pyTail 100 [memLineW] :=
  ⟨(context_assembler_fallback 0 [memLineW]).1 [dbLineW] (List.cons_ne_nil dbLineW []),
   (context_assembler_fallback 0 [memLineW]).2.1,
   (context_assembler_fallback 0 [memLineW]).2.2⟩

/-- A row of the SQLite `users` table (lines 71-80). -/
structure UserRecord where
  user_id : Nat
  username : String
  discriminator : Option String
  is_bot : Bool
  first_seen_at : Nat
  last_seen_at : Nat
  message_count : Nat
  mention_count : Nat
  deriving DecidableEq

/-- A row of the SQLite `messages` table (lines 85-96). -/
structure MsgRecord where
  ts : Nat
  user_id : Option Nat
  username : String
  guild_id : Option Nat
  channel_id : Option Nat
  message_id : Option Nat
  is_bot : Bool
  content : String
  deriving DecidableEq

/-- The two tables of `BotDatabase`. -/
structure Database where
  users : List UserRecord
  messages : List MsgRecord
  deriving DecidableEq

/-- The fresh row inserted by `upsert_user` when no row has the id. -/
def freshUser (user_id : Nat) (username : String) (discriminator : Option String)
    (is_bot : Bool) (now_ts : Nat) (increment_message increment_mention : Bool) : UserRecord :=
  { user_id := user_id, username := username, discriminator := discriminator,
    is_bot := is_bot, first_seen_at := now_ts, last_seen_at := now_ts,
    message_count := if increment_message then 1 else 0,
    mention_count := if increment_mention then 1 else 0 }

/-- The `ON CONFLICT DO UPDATE` branch of `upsert_user` applied to the
existing row: latest name, bot flag and last-seen, counters bumped by the
flags, first-seen untouched. -/
def bumpUser (u : UserRecord) (username : String) (discriminator : Option String)
    (is_bot : Bool) (now_ts : Nat) (increment_message increment_mention : Bool) : UserRecord :=
  { u with
    username := username,
    discriminator := discriminator,
    is_bot := is_bot,
    last_seen_at := now_ts,
    message_count := u.message_count + (if increment_message then 1 else 0),
    mention_count := u.mention_count + (if increment_mention then 1 else 0) }

/-- The `users` table after `INSERT ... ON CONFLICT(user_id) DO UPDATE`. -/
def upsertUsers (users : List UserRecord) (user_id : Nat) (username : String)
    (discriminator : Option String) (is_bot : Bool) (now_ts : Nat)
    (increment_message increment_mention : Bool) : List UserRecord :=
  if users.any (fun u => u.user_id == user_id) then
    users.map (fun u =>
      if u.user_id = user_id then
        bumpUser u username discriminator is_bot now_ts increment_message increment_mention
      else u)
  else
    users ++ [freshUser user_id username discriminator is_bot now_ts
      increment_message increment_mention]

/-- Lines 102-137, `BotDatabase.upsert_user`. -/
def upsert_user (db : Database) (user_id : Nat) (username : String)
    (discriminator : Option String) (is_bot : Bool) (now_ts : Nat)
    (increment_message increment_mention : Bool) : Database :=
  { db with
    users := upsertUsers db.users user_id username discriminator is_bot now_ts
      increment_message increment_mention }

/-- Lines 139-166, `BotDatabase.log_message`: append one immutable row. -/
def log_message (db : Database) (ts : Nat) (user_id : Option Nat) (username : String)
    (guild_id channel_id : Option Nat) (message_id : Option Nat) (is_bot : Bool)
    (content : String) : Database :=
  { db with messages := db.messages ++
      [{ ts := ts, user_id := user_id, username := username, guild_id := guild_id,
         channel_id := channel_id, message_id := message_id, is_bot := is_bot,
         content := content }] }

/-- SQLite `ORDER BY ts DESC` modeled as a sort by descending timestamp. -/
def sortByTsDesc (l : List MsgRecord) : List MsgRecord :=
  List.insertionSort (fun a b => b.ts ≤ a.ts) l

/-- Line 184-185: render one row, with the fixed label for bot rows. -/
def renderRow (r : MsgRecord) : String :=
  (if r.is_bot then botLabel else r.username) ++ colonSpace ++ r.content

/-- Lines 168-186, `BotDatabase.get_recent_messages_for_channel`: the
`limit` most recent rows of the channel, reversed to oldest-first and
rendered. -/
def get_recent_messages_for_channel (db : Database) (channel_id : Nat) (limit : Nat) :
    List String :=
  let rows := (sortByTsDesc (db.messages.filter (fun r => r.channel_id == some channel_id))).take limit
  rows.reverse.map renderRow

/-- The identity and configuration of the running bot. -/
structure BotConfig where
  id : Nat
  name : String
  discriminator : Option String
  personality : String

/-- An incoming Discord message as the handler sees it. -/
structure Message where
  author_id : Nat
  author_name : String
  author_discriminator : Option String
  author_is_bot : Bool
  content : String
  guild_id : Option Nat
  channel_id : Option Nat
  message_id : Nat
  mentions_bot : Bool

/-- Where an exception strikes inside a `try` block holding two database
statements: nowhere, at the first statement (nothing applied), or at the
second (only the first applied).  Errors are logged and swallowed. -/
inductive DbTry where
  | ok : DbTry
  | failFirst : DbTry
  | failSecond : DbTry

def applyTry (o : DbTry) (f g : Database → Database) (db : Database) : Database :=
  match o with
  | DbTry.ok => g (f db)
  | DbTry.failFirst => db
  | DbTry.failSecond => f db

/-- The external outcomes drawn while handling one message: the wall-clock
reads, the incoming-logging `try` block, whether the context read raises,
the completion-API result (`error` models a raised exception), and the
bot-reply logging `try` block. -/
structure EventEnv where
  now : Nat
  incomingDb : DbTry
  readOk : Bool
  api : Except Unit String
  nowBot : Nat
  botDb : DbTry

/-- The mutable state of `DiscordChatBot`: the rolling memory list and the
database. -/
structure BotState where
  memory : List String
  db : Database
  deriving DecidableEq

/-- The request made to the completion API (lines 345-352). -/
structure ApiRequest where
  system : String
  user : String
  deriving DecidableEq

/-- Result of handling one event: new state, texts sent to the channel,
completion requests attempted. -/
structure StepResult where
  state : BotState
  sent : List String
  requests : List ApiRequest

/-- Lines 324-389, `_generate_response`. -/
def generate_response (cfg : BotConfig) (env : EventEnv) (st : BotState) (msg : Message) :
    StepResult :=
  let fetch : Except Unit (List String) :=
    match msg.channel_id with
    | some ch =>
      if env.readOk then Except.ok (get_recent_messages_for_channel st.db ch 100)
      else Except.error ()
    | none => Except.error ()
  let context := String.intercalate newlineStr (buildContext msg.channel_id fetch st.memory)
  let clean := cleanMessage cfg.id msg.content
  let prompt := build_prompt cfg.personality msg.author_name clean context st.memory.length
  match env.api with
  | Except.ok raw =>
    let response_text := pyStrip raw
    let mem1 := st.memory ++ [botLabel ++ colonSpace ++ response_text]
    let db1 := applyTry env.botDb
      (fun db => upsert_user db cfg.id cfg.name cfg.discriminator true env.nowBot true false)
      (fun db => log_message db env.nowBot (some cfg.id) cfg.name msg.guild_id msg.channel_id
        none true response_text)
      st.db
    { state := { memory := mem1, db := db1 }, sent := [response_text],
      requests := [{ system := prompt, user := clean }] }
  | Except.error _ =>
    { state := { memory := st.memory ++ [botLabel ++ colonSpace ++ errorMessage], db := st.db },
      sent := [errorMessage],
      requests := [{ system := prompt, user := clean }] }

/-- Lines 278-322, `_handle_message`: ignore the bot's own messages, log
the message, append it to the rolling memory, trim the memory by one when
it exceeds 100, and respond when mentioned. -/
def handle_message (cfg : BotConfig) (env : EventEnv) (st : BotState) (msg : Message) :
    StepResult :=
  if msg.author_id = cfg.id then { state := st, sent := [], requests := [] }
  else
    let db1 := applyTry env.incomingDb
      (fun db => upsert_user db msg.author_id msg.author_name msg.author_discriminator
        msg.author_is_bot env.now true msg.mentions_bot)
      (fun db => log_message db env.now (some msg.author_id) msg.author_name msg.guild_id
        msg.channel_id (some msg.message_id) false msg.content)
      st.db
    let mem1 := st.memory ++ [msg.author_name ++ colonSpace ++ msg.content]
    let mem2 := if mem1.length > 100 then mem1.tail else mem1
    let st1 : BotState := { memory := mem2, db := db1 }
    if msg.mentions_bot then generate_response cfg env st1 msg
    else { state := st1, sent := [], requests := [] }

/-- Run a list of incoming events from a state, collecting every sent text
and every completion request in order. -/
def runTrace (cfg : BotConfig) : List (Message × EventEnv) → BotState → StepResult
  | [], st => { state := st, sent := [], requests := [] }
  | (msg, env) :: rest, st =>
    let r := handle_message cfg env st msg
    let r2 := runTrace cfg rest r.state
    { state := r2.state, sent := r.sent ++ r2.sent, requests := r.requests ++ r2.requests }

def initialState : BotState := { memory := [], db := { users := [], messages := [] } }

/-- C5: whenever the completion call raises, `_generate_response` sends
exactly the fixed apology to the channel, appends exactly one
apology line to the rolling memory, and leaves the database untouched;
the handler returns normally (it is a total function here), so no
exception escapes. -/
theorem api_error_apology (cfg : BotConfig) (env : EventEnv) (st : BotState) (msg : Message)
    (h : env.api = Except.error ()) :
    (generate_response cfg env st msg).state.db = st.db ∧
    (generate_response cfg env st msg).state.memory =
      st.memory ++ [botLabel ++ colonSpace ++ errorMessage] ∧
    (generate_response cfg env st msg).sent = [errorMessage] := by
  refine ⟨?_, ?_, ?_⟩ <;> simp only [generate_response, h]

def cfgW : BotConfig :=
  { id := 9, name := botLabel, discriminator := none, personality := personaW }

def msgW : Message :=
  { author_id := 1, author_name := authorW, author_discriminator := none,
    author_is_bot := false, content := contentW, guild_id := none,
    channel_id := some 1, message_id := 7, mentions_bot := true }

def envErrW : EventEnv :=
  { now := 0, incomingDb := DbTry.ok, readOk := true, api := Except.error (),
    nowBot := 0, botDb := DbTry.ok }

/-- Witness for C5 at a concrete failing completion call. -/
theorem api_error_apology_witness :
    (generate_response cfgW envErrW initialState msgW).state.db = initialState.db ∧
    (generate_response cfgW envErrW initialState msgW).state.memory =
      initialState.memory ++ [botLabel ++ colonSpace ++ errorMessage] ∧
    (generate_response cfgW envErrW initialState msgW).sent = [errorMessage] :=
  api_error_apology cfgW envErrW initialState msgW rfl

/-- C10: a message authored by the bot itself changes nothing: line 282
returns before any database write, memory append or response. -/
theorem bot_author_no_state_change (cfg : BotConfig) (env : EventEnv) (st : BotState)
    (msg : Message) (h : msg.author_id = cfg.id) :
    handle_message cfg env st msg = { state := st, sent := [], requests := [] } := by
  simp only [handle_message, h, if_pos]

def ownMsgW : Message :=
  { author_id := 9, author_name := botLabel, author_discriminator := none,
    author_is_bot := true, content := contentW, guild_id := none,
    channel_id := some 1, message_id := 8, mentions_bot := false }

/-- Witness for C10: a concrete self-authored message is ignored. -/
theorem bot_author_no_state_change_witness :
    handle_message cfgW envErrW initialState ownMsgW =
      { state := initialState, sent := [], requests := [] } :=
  bot_author_no_state_change cfgW envErrW initialState ownMsgW rfl

/-- Look up the row of an identity, as SQLite does on the primary key. -/
def findUser (users : List UserRecord) (id : Nat) : Option UserRecord :=
  users.find? (fun u => u.user_id == id)

theorem findUser_none_any_false {users : List UserRecord} {id : Nat}
    (h : findUser users id = none) :
    users.any (fun u => u.user_id == id) = false := by
  rw [List.any_eq_false]
  intro u hu
  simpa using List.find?_eq_none.mp h u hu

theorem findUser_some_any_true {users : List UserRecord} {id : Nat} {u : UserRecord}
    (h : findUser users id = some u) :
    users.any (fun u => u.user_id == id) = true := by
  unfold findUser at h
  rw [List.any_eq_true]
  refine ⟨u, List.mem_of_find?_eq_some h, ?_⟩
  have hp := List.find?_some h
  simpa using hp

theorem findUser_append_single {users : List UserRecord} {id : Nat} (v : UserRecord)
    (h : findUser users id = none) (hv : v.user_id = id) :
    findUser (users ++ [v]) id = some v := by
  unfold findUser at h ⊢
  rw [List.find?_append, h]
  simp [List.find?, hv]

theorem findUser_map_bump {id : Nat} (username : String) (discriminator : Option String)
    (is_bot : Bool) (now_ts : Nat) (increment_message increment_mention : Bool) :
    ∀ (users : List UserRecord) (u : UserRecord), findUser users id = some u →
      findUser (users.map (fun x =>
          if x.user_id = id then
            bumpUser x username discriminator is_bot now_ts increment_message increment_mention
          else x)) id =
        some (bumpUser u username discriminator is_bot now_ts
          increment_message increment_mention) := by
  intro users
  induction users with
  | nil => intro u h; simp [findUser] at h
  | cons a t ih =>
    intro u h
    by_cases ha : a.user_id = id
    · have hfind : findUser (a :: t) id = some a := by
        simp [findUser, List.find?_cons_of_pos, ha]
      rw [hfind] at h
      cases h
      have hb : (bumpUser a username discriminator is_bot now_ts
          increment_message increment_mention).user_id = id := ha
      simp [findUser, List.map, ha, List.find?_cons_of_pos, hb]
    · have hfind : findUser (a :: t) id = findUser t id := by
        simp [findUser, List.find?_cons_of_neg, ha]
      rw [hfind] at h
      have := ih u h
      simp only [findUser, List.map] at this ⊢
      rw [if_neg ha, List.find?_cons_of_neg _ (by simpa using ha)]
      exact this

theorem upsertUsers_not_found {users : List UserRecord} {id : Nat}
    (username : String) (discriminator : Option String) (is_bot : Bool) (now_ts : Nat)
    (increment_message increment_mention : Bool) (h : findUser users id = none) :
    upsertUsers users id username discriminator is_bot now_ts
        increment_message increment_mention =
      users ++ [freshUser id username discriminator is_bot now_ts
        increment_message increment_mention] := by
  unfold upsertUsers
  rw [findUser_none_any_false h]
  simp

theorem upsertUsers_found {users : List UserRecord} {id : Nat} {u : UserRecord}
    (username : String) (discriminator : Option String) (is_bot : Bool) (now_ts : Nat)
    (increment_message increment_mention : Bool) (h : findUser users id = some u) :
    findUser (upsertUsers users id username discriminator is_bot now_ts
        increment_message increment_mention) id =
      some (bumpUser u username discriminator is_bot now_ts
        increment_message increment_mention) := by
  unfold upsertUsers
  rw [findUser_some_any_true h]
  simp only [if_pos]
  exact findUser_map_bump username discriminator is_bot now_ts
    increment_message increment_mention users u h

/-- C7: `upsert_user` creates the participant row on first call (counters
set from the flags, both timestamps set to now); on a later call it
rewrites name, discriminator and bot flag, advances last-seen, leaves
first-seen unchanged and adds the 0/1 flag values to the counters; two
calls with identical arguments except an increasing timestamp therefore
increment each counter exactly twice rather than resetting it. -/
theorem upsert_user_counters (db : Database) (id : Nat) (uname : String)
    (disc : Option String) (isb : Bool) (ts1 ts2 : Nat) (im imn : Bool) :
    (findUser db.users id = none →
      findUser (upsert_user db id uname disc isb ts1 im imn).users id =
        some { user_id := id, username := uname, discriminator := disc, is_bot := isb,
               first_seen_at := ts1, last_seen_at := ts1,
               message_count := if im then 1 else 0,
               mention_count := if imn then 1 else 0 }) ∧
    (∀ u : UserRecord, findUser db.users id = some u →
      findUser (upsert_user db id uname disc isb ts1 im imn).users id =
        some { user_id := u.user_id, username := uname, discriminator := disc, is_bot := isb,
               first_seen_at := u.first_seen_at, last_seen_at := ts1,
               message_count := u.message_count + (if im then 1 else 0),
               mention_count := u.mention_count + (if imn then 1 else 0) }) ∧
    (findUser db.users id = none →
      findUser (upsert_user (upsert_user db id uname disc isb ts1 im imn)
          id uname disc isb ts2 im imn).users id =
        some { user_id := id, username := uname, discriminator := disc, is_bot := isb,
               first_seen_at := ts1, last_seen_at := ts2,
               message_count := (if im then 1 else 0) + (if im then 1 else 0),
               mention_count := (if imn then 1 else 0) + (if imn then 1 else 0) }) := by
  refine ⟨fun h => ?_, fun u h => ?_, fun h => ?_⟩
  · show findUser (upsertUsers db.users id uname disc isb ts1 im imn) id = _
    rw [upsertUsers_not_found uname disc isb ts1 im imn h]
    exact findUser_append_single _ h rfl
  · show findUser (upsertUsers db.users id uname disc isb ts1 im imn) id = _
    exact upsertUsers_found uname disc isb ts1 im imn h
  · show findUser (upsertUsers (upsertUsers db.users id uname disc isb ts1 im imn)
      id uname disc isb ts2 im imn) id = _
    have h1 : findUser (upsertUsers db.users id uname disc isb ts1 im imn) id =
        some (freshUser id uname disc isb ts1 im imn) := by
      rw [upsertUsers_not_found uname disc isb ts1 im imn h]
      exact findUser_append_single _ h rfl
    exact upsertUsers_found uname disc isb ts2 im imn h1

def unameW : String := "alice2"

/-- Witness for C7 on the empty table with both flags set. -/
theorem upsert_user_counters_witness :
    findUser (upsert_user { users := [], messages := [] } 7 unameW none false 3 true true).users 7 =
      some { user_id := 7, username := unameW, discriminator := none, is_bot := false,
             first_seen_at := 3, last_seen_at := 3,
             message_count := if true then 1 else 0,
             mention_count := if true then 1 else 0 } ∧
    findUser (upsert_user (upsert_user { users := [], messages := [] } 7 unameW none false 3 true true)
        7 unameW none false 5 true true).users 7 =
      some { user_id := 7, username := unameW, discriminator := none, is_bot := false,
             first_seen_at := 3, last_seen_at := 5,
             message_count := (if true then 1 else 0) + (if true then 1 else 0),
             mention_count := (if true then 1 else 0) + (if true then 1 else 0) } :=
  ⟨(upsert_user_counters { users := [], messages := [] } 7 unameW none false 3 5 true true).1 rfl,
   (upsert_user_counters { users := [], messages := [] } 7 unameW none false 3 5 true true).2.2 rfl⟩

def hiW : String := "hi"

def plainMsgW : Message :=
  { author_id := 1, author_name := authorW, author_discriminator := none,
    author_is_bot := false, content := contentW, guild_id := none,
    channel_id := some 1, message_id := 0, mentions_bot := false }

def mentionMsgW : Message :=
  { plainMsgW with mentions_bot := true }

def envOkW : EventEnv :=
  { now := 0, incomingDb := DbTry.ok, readOk := true, api := Except.ok hiW,
    nowBot := 0, botDb := DbTry.ok }

/-- 99 ordinary messages followed by one mention whose reply succeeds. -/
def overflowTraceW : List (Message × EventEnv) :=
  List.replicate 99 (plainMsgW, envOkW) ++ [(mentionMsgW, envOkW)]

set_option maxRecDepth 100000 in
/-- C2 evidence: after 99 ordinary messages and one successful triggering
message the rolling memory holds 101 lines.  The user-message path trims
the list (line 318) but the bot-reply append on line 357 does not, so the
100-line bound claimed for every mutation is violated. -/
theorem memory_bound_violated :
    (runTrace cfgW overflowTraceW initialState).state.memory.length = 101 := by
  rfl

/-- Substring test on char lists (sliding window). -/
def containsSub (pat : List Char) : List Char → Bool
  | [] => pat.isEmpty
  | c :: t => pat.isPrefixOf (c :: t) || containsSub pat t

def strContains (s pat : String) : Bool := containsSub pat.data s.data

/-- The phrase unique to the irritated prompt. -/
def irritatedMarkerW : String := "slightly irritated"

/-- The phrase unique to the refreshed prompt. -/
def refreshedMarkerW : String := "Stay in character"

def noReqW : ApiRequest := { system := personaW, user := personaW }

/-- 99 ordinary messages, then two mentions whose replies succeed. -/
def saturationTraceW : List (Message × EventEnv) :=
  List.replicate 99 (plainMsgW, envOkW) ++ [(mentionMsgW, envOkW), (mentionMsgW, envOkW)]

set_option maxRecDepth 200000 in
/-- C3 evidence: the buffer reaches 100 at the first mention (its prompt is
Refreshed, n = 100), but the un-trimmed bot-reply append pushes the length
to 101, so at the second mention the counter is 101 and the built
instruction is the Irritated one, not the Refreshed one; the final memory
length is 102, not 100. -/
theorem saturation_freeze_violated :
    (runTrace cfgW saturationTraceW initialState).state.memory.length = 102 ∧
    strContains ((runTrace cfgW saturationTraceW initialState).requests.getD 0 noReqW).system
      refreshedMarkerW = true ∧
    strContains ((runTrace cfgW saturationTraceW initialState).requests.getD 1 noReqW).system
      irritatedMarkerW = true ∧
    strContains ((runTrace cfgW saturationTraceW initialState).requests.getD 1 noReqW).system
      refreshedMarkerW = false :=
  ⟨rfl, rfl, rfl, rfl⟩

theorem removeAllGo_fuel (pat : List Char) :
    ∀ (f1 : Nat) (s : List Char) (f2 : Nat), s.length ≤ f1 → s.length ≤ f2 →
      removeAllGo pat f1 s = removeAllGo pat f2 s := by
  intro f1
  induction f1 with
  | zero =>
    intro s f2 h1 _
    have hs : s = [] := List.eq_nil_of_length_eq_zero (Nat.le_zero.mp h1)
    subst hs
    cases f2 <;> rfl
  | succ f ih =>
    intro s f2 h1 h2
    cases s with
    | nil => cases f2 <;> rfl
    | cons c t =>
      cases f2 with
      | zero => exact absurd h2 (by simp)
      | succ g =>
        have ht1 : t.length ≤ f := by
          simp only [List.length_cons] at h1
          omega
        have ht2 : t.length ≤ g := by
          simp only [List.length_cons] at h2
          omega
        by_cases hp : pat.isPrefixOf (c :: t) = true
        · simp only [removeAllGo]
          rw [if_pos hp, if_pos hp]
          refine ih (t.drop (pat.length - 1)) g ?_ ?_ <;>
            · rw [List.length_drop]
              omega
        · simp only [removeAllGo]
          rw [if_neg hp, if_neg hp]
          exact congrArg (c :: ·) (ih t g ht1 ht2)

theorem removeAll_nil (pat : List Char) : removeAll pat [] = [] := by
  unfold removeAll
  by_cases h : pat.isEmpty = true <;> simp [h, removeAllGo]

theorem removeAll_cons_neg (p : Char) (tl : List Char) (c : Char) (s : List Char)
    (hp : (p :: tl).isPrefixOf (c :: s) = false) :
    removeAll (p :: tl) (c :: s) = c :: removeAll (p :: tl) s := by
  show removeAllGo (p :: tl) (s.length + 1) (c :: s) = c :: removeAllGo (p :: tl) s.length s
  simp only [removeAllGo]
  rw [if_neg (by simp [hp])]

theorem removeAll_cons_pos (p : Char) (tl : List Char) (c : Char) (s : List Char)
    (hp : (p :: tl).isPrefixOf (c :: s) = true) :
    removeAll (p :: tl) (c :: s) = removeAll (p :: tl) (s.drop ((p :: tl).length - 1)) := by
  show removeAllGo (p :: tl) (s.length + 1) (c :: s) =
    removeAllGo (p :: tl) (s.drop ((p :: tl).length - 1)).length
      (s.drop ((p :: tl).length - 1))
  simp only [removeAllGo]
  rw [if_pos hp]
  refine removeAllGo_fuel _ _ _ _ ?_ ?_ <;> simp [List.length_drop]

theorem isPrefixOf_append_self (l r : List Char) : l.isPrefixOf (l ++ r) = true := by
  induction l with
  | nil => simp
  | cons a t ih => simp [List.isPrefixOf_cons₂, ih]

theorem removeAll_self_head (p : Char) (tl rest : List Char) :
    removeAll (p :: tl) ((p :: tl) ++ rest) = removeAll (p :: tl) rest := by
  have hp : (p :: tl).isPrefixOf (p :: (tl ++ rest)) = true := isPrefixOf_append_self _ _
  rw [show (p :: tl) ++ rest = p :: (tl ++ rest) from rfl,
    removeAll_cons_pos p tl p (tl ++ rest) hp]
  congr 1
  show List.drop (tl.length + 1 - 1) (tl ++ rest) = rest
  rw [Nat.add_sub_cancel]
  exact List.drop_left tl rest

theorem removeAll_append_clean (tl : List Char) :
    ∀ (seg : List Char), '<' ∉ seg → ∀ rest,
      removeAll ('<' :: tl) (seg ++ rest) = seg ++ removeAll ('<' :: tl) rest := by
  intro seg
  induction seg with
  | nil => intro _ rest; simp
  | cons c t ih =>
    intro hseg rest
    have hc : ¬c = '<' := fun h => hseg (by rw [h]; exact List.mem_cons_self _ _)
    have hb : ('<' == c) = false := beq_eq_false_iff_ne.mpr fun h => hc h.symm
    have hpre : ('<' :: tl).isPrefixOf (c :: (t ++ rest)) = false := by
      simp [List.isPrefixOf_cons₂, hb]
    rw [show (c :: t) ++ rest = c :: (t ++ rest) from rfl,
      removeAll_cons_neg '<' tl c (t ++ rest) hpre,
      ih (fun h => hseg (List.mem_cons_of_mem c h)) rest]
    rfl

theorem digitChar_isDigit {m : Nat} (h : m < 10) : (Nat.digitChar m).isDigit = true := by
  interval_cases m <;> decide

theorem toDigitsCore_digits (fuel : Nat) :
    ∀ (n : Nat) (ds : List Char), (∀ c ∈ ds, c.isDigit = true) →
      ∀ c ∈ Nat.toDigitsCore 10 fuel n ds, c.isDigit = true := by
  induction fuel with
  | zero => intro n ds hds c hc; exact hds c hc
  | succ f ih =>
    intro n ds hds c hc
    have hd : (Nat.digitChar (n % 10)).isDigit = true :=
      digitChar_isDigit (Nat.mod_lt n (by norm_num))
    have hds' : ∀ x ∈ Nat.digitChar (n % 10) :: ds, x.isDigit = true := by
      intro x hx
      rcases List.mem_cons.mp hx with h | h
      · rw [h]; exact hd
      · exact hds x h
    simp only [Nat.toDigitsCore] at hc
    by_cases h0 : n / 10 = 0
    · rw [if_pos h0] at hc
      exact hds' c hc
    · rw [if_neg h0] at hc
      exact ih (n / 10) _ hds' c hc

theorem repr_chars_isDigit (n : Nat) : ∀ c ∈ (Nat.repr n).data, c.isDigit = true := by
  intro c hc
  have hc' : c ∈ Nat.toDigitsCore 10 (n + 1) n [] := hc
  exact toDigitsCore_digits (n + 1) n [] (fun x hx => absurd hx (List.not_mem_nil x)) c hc'

theorem repr_no_angle (n : Nat) : '<' ∉ (Nat.repr n).data := fun h =>
  absurd (repr_chars_isDigit n _ h) (by decide)

theorem removeAll_plain_skips_nick (id : Nat) (rest : List Char) :
    removeAll (mentionPlain id) (mentionNick id ++ rest) =
      mentionNick id ++ removeAll (mentionPlain id) rest := by
  have hpre : (mentionPlain id).isPrefixOf
      ('<' :: (('@' :: '!' :: (Nat.repr id).data ++ ['>']) ++ rest)) = false := by
    show ('<' :: '@' :: ((Nat.repr id).data ++ ['>'])).isPrefixOf
      ('<' :: '@' :: '!' :: (((Nat.repr id).data ++ ['>']) ++ rest)) = false
    cases hd : (Nat.repr id).data with
    | nil =>
      have h1 : ('>' == '!') = false := by decide
      simp [List.isPrefixOf_cons₂, h1]
    | cons e es =>
      have he : e.isDigit = true := by
        refine repr_chars_isDigit id e ?_
        rw [hd]
        exact List.mem_cons_self _ _
      have hb : (e == '!') = false := beq_eq_false_iff_ne.mpr fun h => by
        rw [h] at he
        exact absurd he (by decide)
      simp [List.isPrefixOf_cons₂, hb]
  have hseg : '<' ∉ ('@' :: '!' :: (Nat.repr id).data ++ ['>']) := by
    intro h
    rcases List.mem_cons.mp h with h | h
    · exact absurd h (by decide)
    rcases List.mem_cons.mp h with h | h
    · exact absurd h (by decide)
    rcases List.mem_append.mp h with h | h
    · exact absurd (repr_chars_isDigit id _ h) (by decide)
    · exact absurd (List.mem_singleton.mp h) (by decide)
  calc removeAll (mentionPlain id) (mentionNick id ++ rest)
      = removeAll (mentionPlain id)
          ('<' :: (('@' :: '!' :: (Nat.repr id).data ++ ['>']) ++ rest)) := rfl
    _ = '<' :: removeAll (mentionPlain id)
          (('@' :: '!' :: (Nat.repr id).data ++ ['>']) ++ rest) :=
        removeAll_cons_neg '<' ('@' :: (Nat.repr id).data ++ ['>']) '<' _ hpre
    _ = '<' :: (('@' :: '!' :: (Nat.repr id).data ++ ['>']) ++
          removeAll (mentionPlain id) rest) :=
        congrArg ('<' :: ·) (removeAll_append_clean ('@' :: (Nat.repr id).data ++ ['>'])
          ('@' :: '!' :: (Nat.repr id).data ++ ['>']) hseg rest)
    _ = mentionNick id ++ removeAll (mentionPlain id) rest := rfl

theorem removeAll_plain_full (id : Nat) (pre mid post : List Char)
    (hpre : '<' ∉ pre) (hmid : '<' ∉ mid) (hpost : '<' ∉ post) :
    removeAll (mentionPlain id)
        (pre ++ (mentionNick id ++ (mid ++ (mentionPlain id ++ post)))) =
      pre ++ (mentionNick id ++ (mid ++ post)) := by
  have h2 := removeAll_append_clean ('@' :: (Nat.repr id).data ++ ['>']) post hpost []
  rw [List.append_nil, removeAll_nil, List.append_nil] at h2
  calc removeAll (mentionPlain id)
        (pre ++ (mentionNick id ++ (mid ++ (mentionPlain id ++ post))))
      = pre ++ removeAll (mentionPlain id)
          (mentionNick id ++ (mid ++ (mentionPlain id ++ post))) :=
        removeAll_append_clean ('@' :: (Nat.repr id).data ++ ['>']) pre hpre _
    _ = pre ++ (mentionNick id ++ removeAll (mentionPlain id)
          (mid ++ (mentionPlain id ++ post))) :=
        congrArg (pre ++ ·) (removeAll_plain_skips_nick id _)
    _ = pre ++ (mentionNick id ++ (mid ++ removeAll (mentionPlain id)
          (mentionPlain id ++ post))) :=
        congrArg (pre ++ ·) (congrArg (mentionNick id ++ ·)
          (removeAll_append_clean ('@' :: (Nat.repr id).data ++ ['>']) mid hmid _))
    _ = pre ++ (mentionNick id ++ (mid ++ removeAll (mentionPlain id) post)) :=
        congrArg (pre ++ ·) (congrArg (mentionNick id ++ ·) (congrArg (mid ++ ·)
          (removeAll_self_head '<' ('@' :: (Nat.repr id).data ++ ['>']) post)))
    _ = pre ++ (mentionNick id ++ (mid ++ post)) :=
        congrArg (pre ++ ·) (congrArg (mentionNick id ++ ·) (congrArg (mid ++ ·) h2))

theorem removeAll_nick_full (id : Nat) (pre mid post : List Char)
    (hpre : '<' ∉ pre) (hmid : '<' ∉ mid) (hpost : '<' ∉ post) :
    removeAll (mentionNick id) (pre ++ (mentionNick id ++ (mid ++ post))) =
      pre ++ (mid ++ post) := by
  have hmp : '<' ∉ mid ++ post := by
    intro h
    rcases List.mem_append.mp h with h | h
    · exact hmid h
    · exact hpost h
  have h3 := removeAll_append_clean ('@' :: '!' :: (Nat.repr id).data ++ ['>'])
    (mid ++ post) hmp []
  rw [List.append_nil, removeAll_nil, List.append_nil] at h3
  calc removeAll (mentionNick id) (pre ++ (mentionNick id ++ (mid ++ post)))
      = pre ++ removeAll (mentionNick id) (mentionNick id ++ (mid ++ post)) :=
        removeAll_append_clean ('@' :: '!' :: (Nat.repr id).data ++ ['>']) pre hpre _
    _ = pre ++ removeAll (mentionNick id) (mid ++ post) :=
        congrArg (pre ++ ·)
          (removeAll_self_head '<' ('@' :: '!' :: (Nat.repr id).data ++ ['>']) (mid ++ post))
    _ = pre ++ (mid ++ post) := congrArg (pre ++ ·) h3

/-- C8: both forms of the bot's own mention markup in a triggering message
are removed before the text is sent as user-level content to the
completion API: cleaning a message that carries the with-exclamation and
the without-exclamation form (in otherwise markup-free text) deletes both
and strips whitespace, and the user field of the completion request is
exactly the cleaned content. -/
theorem mention_stripping :
    (∀ (id : Nat) (pre mid post : List Char), '<' ∉ pre → '<' ∉ mid → '<' ∉ post →
      cleanMessage id
          (String.mk (pre ++ (mentionNick id ++ (mid ++ (mentionPlain id ++ post))))) =
        String.mk (pyStripChars (pre ++ (mid ++ post)))) ∧
    (∀ (cfg : BotConfig) (env : EventEnv) (st : BotState) (msg : Message),
      (generate_response cfg env st msg).requests.map ApiRequest.user =
        [cleanMessage cfg.id msg.content]) := by
  constructor
  · intro id pre mid post hpre hmid hpost
    show String.mk (pyStripChars (removeAll (mentionNick id) (removeAll (mentionPlain id)
      (pre ++ (mentionNick id ++ (mid ++ (mentionPlain id ++ post))))))) = _
    rw [removeAll_plain_full id pre mid post hpre hmid hpost,
      removeAll_nick_full id pre mid post hpre hmid hpost]
  · intro cfg env st msg
    cases h : env.api with
    | ok raw => simp [generate_response, h]
    | error e => simp [generate_response, h]

def preW : List Char := [' ', 'h', 'i', ' ']

def midW : List Char := ['y', 'o', ' ']

def postW : List Char := ['n', 'o', 'w']

/-- Witness for C8 at the bot id 123 with both mention forms embedded in
plain text. -/
theorem mention_stripping_witness :
    cleanMessage 123
        (String.mk (preW ++ (mentionNick 123 ++ (midW ++ (mentionPlain 123 ++ postW))))) =
      String.mk (pyStripChars (preW ++ (midW ++ postW))) ∧
    (generate_response cfgW envErrW initialState msgW).requests.map ApiRequest.user =
      [cleanMessage cfgW.id msgW.content] :=
  ⟨mention_stripping.1 123 preW midW postW (by decide) (by decide) (by decide),
   mention_stripping.2 cfgW envErrW initialState msgW⟩

/-- The claim's reading of `recentTranscript`, written from its words: the
channel rows in chronological (oldest-first) order, restricted to the
`limit` most recent ones, each rendered. -/
def recentTranscriptChrono (db : Database) (channel_id limit : Nat) : List String :=
  (pyTail limit (List.insertionSort (fun a b : MsgRecord => a.ts ≤ b.ts)
    (db.messages.filter (fun r => r.channel_id == some channel_id)))).map renderRow

theorem sortDesc_eq_reverse_sortAsc (l : List MsgRecord)
    (hdist : l.Pairwise (fun a b => a.ts ≠ b.ts)) :
    List.insertionSort (fun a b => b.ts ≤ a.ts) l =
      (List.insertionSort (fun a b => a.ts ≤ b.ts) l).reverse := by
  haveI hTd : IsTotal MsgRecord (fun a b => b.ts ≤ a.ts) :=
    ⟨fun a b => Nat.le_total b.ts a.ts⟩
  haveI hTrd : IsTrans MsgRecord (fun a b => b.ts ≤ a.ts) :=
    ⟨fun a b c hab hbc => Nat.le_trans hbc hab⟩
  haveI hTa : IsTotal MsgRecord (fun a b => a.ts ≤ b.ts) :=
    ⟨fun a b => Nat.le_total a.ts b.ts⟩
  haveI hTra : IsTrans MsgRecord (fun a b => a.ts ≤ b.ts) :=
    ⟨fun a b c hab hbc => Nat.le_trans hab hbc⟩
  haveI hAnti : IsAntisymm MsgRecord (fun a b => b.ts < a.ts) :=
    ⟨fun a b h1 h2 => absurd (Nat.lt_trans h1 h2) (Nat.lt_irrefl _)⟩
  have pD := List.perm_insertionSort (fun a b : MsgRecord => b.ts ≤ a.ts) l
  have pA := List.perm_insertionSort (fun a b : MsgRecord => a.ts ≤ b.ts) l
  have sD := List.sorted_insertionSort (fun a b : MsgRecord => b.ts ≤ a.ts) l
  have sA := List.sorted_insertionSort (fun a b : MsgRecord => a.ts ≤ b.ts) l
  have dD : (List.insertionSort (fun a b : MsgRecord => b.ts ≤ a.ts) l).Pairwise
      (fun a b => a.ts ≠ b.ts) :=
    (List.Perm.pairwise_iff (fun h => Ne.symm h) pD).mpr hdist
  have dA : (List.insertionSort (fun a b : MsgRecord => a.ts ≤ b.ts) l).Pairwise
      (fun a b => a.ts ≠ b.ts) :=
    (List.Perm.pairwise_iff (fun h => Ne.symm h) pA).mpr hdist
  have sD' : (List.insertionSort (fun a b : MsgRecord => b.ts ≤ a.ts) l).Pairwise
      (fun a b => b.ts < a.ts) :=
    (List.Pairwise.and sD dD).imp (fun h => Nat.lt_of_le_of_ne h.1 (Ne.symm h.2))
  have sRA : (List.insertionSort (fun a b : MsgRecord => a.ts ≤ b.ts) l).reverse.Pairwise
      (fun a b => b.ts < a.ts) := by
    rw [List.pairwise_reverse]
    exact (List.Pairwise.and sA dA).imp (fun h => Nat.lt_of_le_of_ne h.1 h.2)
  have perm : List.Perm (List.insertionSort (fun a b : MsgRecord => b.ts ≤ a.ts) l)
      (List.insertionSort (fun a b : MsgRecord => a.ts ≤ b.ts) l).reverse :=
    pD.trans (pA.symm.trans (List.reverse_perm _).symm)
  exact List.eq_of_perm_of_sorted perm sD' sRA

/-- C6: for every stored message set and channel (with pairwise distinct
timestamps, so that most recent is well defined),
`get_recent_messages_for_channel` returns at most `limit` lines, namely
the `limit` most-recent channel rows reordered to chronological
oldest-first order, each rendered with the stored display name, except
that bot-flagged rows carry the fixed Bot label. -/
theorem recent_transcript_chronological (db : Database) (ch limit : Nat)
    (hdist : (db.messages.filter (fun r => r.channel_id == some ch)).Pairwise
      (fun a b => a.ts ≠ b.ts)) :
    (get_recent_messages_for_channel db ch limit).length ≤ limit ∧
    get_recent_messages_for_channel db ch limit = recentTranscriptChrono db ch limit := by
  constructor
  · show (((sortByTsDesc (db.messages.filter (fun r => r.channel_id == some ch))).take
      limit).reverse.map renderRow).length ≤ limit
    rw [List.length_map, List.length_reverse, List.length_take]
    exact Nat.min_le_left _ _
  · show ((sortByTsDesc (db.messages.filter (fun r => r.channel_id == some ch))).take
      limit).reverse.map renderRow =
      (pyTail limit (List.insertionSort (fun a b : MsgRecord => a.ts ≤ b.ts)
        (db.messages.filter (fun r => r.channel_id == some ch)))).map renderRow
    unfold sortByTsDesc
    rw [sortDesc_eq_reverse_sortAsc _ hdist]
    congr 1
    rw [List.take_reverse, List.reverse_reverse]
    rfl

def msgRec1W : MsgRecord :=
  { ts := 1, user_id := some 1, username := authorW, guild_id := none,
    channel_id := some 0, message_id := some 1, is_bot := false, content := contentW }

def msgRec2W : MsgRecord :=
  { ts := 2, user_id := some 9, username := authorW, guild_id := none,
    channel_id := some 0, message_id := none, is_bot := true, content := hiW }

def dbW : Database := { users := [], messages := [msgRec1W, msgRec2W] }

/-- Witness for C6 on a two-row store with limit 1. -/
theorem recent_transcript_chronological_witness :
    (get_recent_messages_for_channel dbW 0 1).length ≤ 1 ∧
    get_recent_messages_for_channel dbW 0 1 = recentTranscriptChrono dbW 0 1 :=
  recent_transcript_chronological dbW 0 1 (by decide)
